import Mathlib

/-!
Verification development for the numerical core of wl_plotter.py.

The script compares modelled water levels against observations.  This
file gives a shallow embedding of the pieces the specification talks
about: the circular phase wrap (phase_correct), the combined
amplitude/phase error metric (mean_rmse), constituent selection by
record duration (tidal_analysis over MINHOURS), the pointwise station
statistics (TSData), the resampling/alignment step of main together
with higher_resolution, and the per-station orchestration skeleton.

Python floats are modelled as rationals wherever the script only uses
field operations and comparisons, and as reals where sqrt/cos occur.
Pandas series are modelled as association lists from integer
timestamps to rational values.
-/

namespace WL

/-- Elementwise body of phase_correct (wl_plotter.py lines 181-185).
The two numpy masked assignments run in sequence on the same array:
first every entry above 180 is replaced by 360 minus the entry, then
every entry of the updated array below -180 is replaced by 360 plus
the entry. -/
def phase_correct_elem {α : Type} [LinearOrderedField α] (x : α) : α :=
  let y := if 180 < x then 360 - x else x
  if y < -180 then 360 + y else y

/-- phase_correct on a whole array: the masked assignments act
entrywise, so the returned array is the elementwise image. -/
def phase_correct {α : Type} [LinearOrderedField α] (p : List α) : List α :=
  p.map phase_correct_elem

/-- Caller-visible content of the argument array after phase_correct
returns.  The numpy masked assignments inside phase_correct write into
the argument array itself (no copy is taken), so once the call
returns, the argument holds exactly the values phase_correct returns. -/
def phase_correct_post {α : Type} [LinearOrderedField α] (p : List α) : List α :=
  phase_correct p

/-- Wrapped phase difference between two phases.  The script has no
named circular_diff function: phase differences are formed by
subtraction and then passed through phase_correct (mae_phase, line
163, and mean_rmse, line 173); this definition renders that call on a
single pair. -/
def circular_diff {α : Type} [LinearOrderedField α] (a b : α) : α :=
  phase_correct_elem (a - b)

/-- A list is fixed by an elementwise map exactly when every element is
fixed. -/
theorem map_fix_iff {α : Type} (f : α → α) :
    ∀ l : List α, l.map f = l ↔ ∀ x ∈ l, f x = x := by
  intro l
  induction l with
  | nil => simp
  | cons a l ih =>
    simp only [List.map_cons, List.cons.injEq, List.mem_cons]
    constructor
    · rintro ⟨h1, h2⟩ x hx
      rcases hx with hx | hx
      · exact hx ▸ h1
      · exact (ih.mp h2) x hx
    · intro h
      exact ⟨h a (Or.inl rfl), ih.mpr fun x hx => h x (Or.inr hx)⟩

/-- phase_correct_elem fixes a value exactly when it already lies in
the band from -180 to 180. -/
theorem phase_correct_elem_fix_iff (x : ℚ) :
    phase_correct_elem x = x ↔ -180 ≤ x ∧ x ≤ 180 := by
  simp only [phase_correct_elem]
  split_ifs with ha hb hb <;> constructor <;> intro h
  · exfalso; linarith
  · exfalso; linarith
  · exfalso; linarith
  · exfalso; linarith
  · exfalso; linarith
  · exfalso; linarith
  · exact ⟨by linarith, by linarith⟩
  · rfl

/-- C2 counterexample: the claim fixes the sign convention as
circular_diff 1 359 = -2, but the code maps the difference -358 to
360 - 358 = 2, so both orders of the inputs give +2. -/
theorem c2_circular_diff_counterexample :
    circular_diff (359 : ℚ) 1 = 2 ∧ circular_diff (1 : ℚ) 359 = 2 ∧
      ¬ circular_diff (1 : ℚ) 359 = -2 := by
  refine ⟨?_, ?_, ?_⟩ <;> norm_num [circular_diff, phase_correct_elem]

/-- C2 amended: the correction maps every phase difference strictly
between -360 and 360 into the band from -180 to 180, and it returns
magnitude 2 for the inputs 359, 1 in either order; the sign of the
wrapped difference is not preserved (both directions give +2). -/
theorem c2_phase_correct_amended :
    (∀ x : ℚ, -360 < x → x < 360 →
      -180 ≤ phase_correct_elem x ∧ phase_correct_elem x ≤ 180) ∧
    circular_diff (359 : ℚ) 1 = 2 ∧ circular_diff (1 : ℚ) 359 = 2 := by
  refine ⟨?_, by norm_num [circular_diff, phase_correct_elem],
    by norm_num [circular_diff, phase_correct_elem]⟩
  intro x h1 h2
  simp only [phase_correct_elem]
  split_ifs with ha hb hb <;> constructor <;> linarith

/-- C2 amended witness at the concrete difference 250. -/
theorem c2_phase_correct_amended_witness :
    (-360 : ℚ) < 250 ∧ (250 : ℚ) < 360 ∧
      (-180 ≤ phase_correct_elem (250 : ℚ) ∧ phase_correct_elem (250 : ℚ) ≤ 180) :=
  ⟨by norm_num, by norm_num,
    c2_phase_correct_amended.1 250 (by norm_num) (by norm_num)⟩

/-- C9 counterexample: after the call phase_correct p, the array p
holds the corrected values; at p = [359] it holds [1], not the
original [359], so the correction does modify its argument. -/
theorem c9_phase_correct_mutation_counterexample :
    phase_correct_post [(359 : ℚ)] = [1] ∧
      ¬ phase_correct_post [(359 : ℚ)] = [359] := by
  constructor <;>
    norm_num [phase_correct_post, phase_correct, phase_correct_elem]

/-- C9 amended: the circular phase correction mutates its argument in
place; the argument is left with its original values exactly when
every entry already lies in the band from -180 to 180. -/
theorem c9_phase_correct_mutation_amended (p : List ℚ) :
    phase_correct_post p = p ↔ ∀ x ∈ p, -180 ≤ x ∧ x ≤ 180 := by
  unfold phase_correct_post phase_correct
  rw [map_fix_iff]
  constructor
  · intro h x hx
    exact (phase_correct_elem_fix_iff x).mp (h x hx)
  · intro h x hx
    exact (phase_correct_elem_fix_iff x).mpr (h x hx)

/-- C9 amended witness: a list already inside the band is untouched. -/
theorem c9_phase_correct_mutation_amended_witness :
    phase_correct_post [(10 : ℚ), -20] = [10, -20] :=
  (c9_phase_correct_mutation_amended [(10 : ℚ), -20]).mpr (by norm_num)

/-- The MINHOURS table of wl_plotter.py lines 55-88: minimum number of
hours of record needed to tell each constituent apart from its
neighbours. -/
def MINHOURS : List (String × ℚ) :=
  [("M2", 12), ("M4", 12), ("M6", 12), ("M8", 12), ("K1", 27),
   ("S6", 118), ("2MK3", 329), ("MK3", 329), ("O1", 329), ("OO1", 329),
   ("2Q1", 332), ("2SM2", 356), ("MS4", 356), ("S2", 356), ("S4", 356),
   ("M1", 656), ("M3", 656), ("J1", 663), ("MN4", 663), ("N2", 663),
   ("Q1", 663), ("L2", 764), ("MM", 764), ("MU2", 764), ("K2", 4383),
   ("MF", 4383), ("MSF", 4383), ("P1", 4383), ("2N2", 4942),
   ("LAMBDA2", 4942), ("NU2", 4942), ("RHO1", 4942)]

/-- Constituent filter of tidal_analysis (wl_plotter.py lines 199-211).
For each catalog constituent the MINHOURS entry is looked up; a
constituent with an entry is kept when the entry is truthy in Python
(nonzero) and the record length thrs reaches it; a constituent without
an entry is kept when the record spans at least 24*366 hours.  The
catalog itself (the pytides noaa list) is an external dependency of
the repository, so it is a parameter here. -/
def tidal_select (catalog : List String) (thrs : ℚ) : List String :=
  catalog.filter fun c =>
    match MINHOURS.lookup c with
    | some minh => decide (¬ minh = 0) && decide (minh ≤ thrs)
    | none => decide ((24 * 366 : ℚ) ≤ thrs)

/-- A successful association-list lookup comes from a pair of the
list. -/
theorem mem_of_lookup_eq_some {α β : Type} [BEq α] [LawfulBEq α]
    {l : List (α × β)} {a : α} {b : β} (h : l.lookup a = some b) :
    (a, b) ∈ l := by
  induction l with
  | nil => simp [List.lookup] at h
  | cons p l ih =>
    rcases p with ⟨k, v⟩
    by_cases hab : (a == k) = true
    · simp only [List.lookup, hab, Option.some.injEq] at h
      subst h
      exact (eq_of_beq hab) ▸ List.mem_cons_self _ _
    · rw [Bool.not_eq_true] at hab
      simp only [List.lookup, hab] at h
      exact List.mem_cons_of_mem _ (ih h)

/-- Every value stored in the MINHOURS table is nonzero, so the Python
truthiness test on a present entry never rejects it. -/
theorem minhours_lookup_ne_zero {c : String} {m : ℚ}
    (h : MINHOURS.lookup c = some m) : ¬ m = 0 := by
  have hm : (c, m) ∈ MINHOURS := mem_of_lookup_eq_some h
  fin_cases hm <;> norm_num

/-- Membership characterisation of the constituent selection. -/
theorem tidal_select_mem (catalog : List String) (thrs : ℚ) (c : String) :
    c ∈ tidal_select catalog thrs ↔
      c ∈ catalog ∧
        ((∃ m, MINHOURS.lookup c = some m ∧ m ≤ thrs) ∨
         (MINHOURS.lookup c = none ∧ (24 * 366 : ℚ) ≤ thrs)) := by
  unfold tidal_select
  rw [List.mem_filter]
  constructor
  · rintro ⟨hc, hf⟩
    refine ⟨hc, ?_⟩
    rcases hl : MINHOURS.lookup c with _ | m
    · rw [hl] at hf
      simp only [decide_eq_true_eq] at hf
      exact Or.inr ⟨rfl, hf⟩
    · rw [hl] at hf
      simp only [Bool.and_eq_true, decide_eq_true_eq] at hf
      exact Or.inl ⟨m, rfl, hf.2⟩
  · rintro ⟨hc, ⟨m, hl, hm⟩ | ⟨hl, hm⟩⟩
    · refine ⟨hc, ?_⟩
      rw [hl]
      simp only [Bool.and_eq_true, decide_eq_true_eq]
      exact ⟨minhours_lookup_ne_zero hl, hm⟩
    · refine ⟨hc, ?_⟩
      rw [hl]
      simpa using hm

/-- C4: a constituent is selected exactly when it is in the catalog
and either its declared minimum-hours threshold is at most the record
duration, or it has no declared threshold and the record spans at
least 24*366 hours.  The selection is a total filter, so it never
fails and an empty selection is a valid result. -/
theorem c4_constituent_selection (catalog : List String) (thrs : ℚ)
    (c : String) :
    c ∈ tidal_select catalog thrs ↔
      c ∈ catalog ∧
        ((∃ m, MINHOURS.lookup c = some m ∧ m ≤ thrs) ∨
         (MINHOURS.lookup c = none ∧ (24 * 366 : ℚ) ≤ thrs)) :=
  tidal_select_mem catalog thrs c

/-- C4 witness: M2 has threshold 12 and is selected for a 100 hour
record; a constituent missing from the table is not selected then. -/
theorem c4_constituent_selection_witness :
    "M2" ∈ tidal_select ["M2", "AAA"] 100 :=
  (c4_constituent_selection ["M2", "AAA"] 100 "M2").mpr
    ⟨by simp, Or.inl ⟨12, rfl, by norm_num⟩⟩

/-- C5: the constituent selection is monotone in the record duration. -/
theorem c5_selection_monotone (catalog : List String) (h1 h2 : ℚ)
    (hle : h1 ≤ h2) :
    ∀ c ∈ tidal_select catalog h1, c ∈ tidal_select catalog h2 := by
  intro c hc
  rcases (tidal_select_mem catalog h1 c).mp hc with ⟨hcat, hsel⟩
  refine (tidal_select_mem catalog h2 c).mpr ⟨hcat, ?_⟩
  rcases hsel with ⟨m, hl, hm⟩ | ⟨hl, hm⟩
  · exact Or.inl ⟨m, hl, le_trans hm hle⟩
  · exact Or.inr ⟨hl, le_trans hm hle⟩

/-- C5 witness at durations 12 and 400 hours. -/
theorem c5_selection_monotone_witness :
    (12 : ℚ) ≤ 400 ∧
      ∀ c ∈ tidal_select ["M2", "S2"] 12, c ∈ tidal_select ["M2", "S2"] 400 :=
  ⟨by norm_num, c5_selection_monotone ["M2", "S2"] 12 400 (by norm_num)⟩

/-! ## TSData station statistics

The joined station DataFrame is a list of rows (model, observation);
the column accesses predicted and observed of TSData are the two
projections. -/

/-- Mean of a column, as pandas mean: sum divided by length. -/
def meanL {α : Type} [Field α] (l : List α) : α :=
  l.sum / (l.length : α)

/-- TSData.bias (wl_plotter.py lines 134-135): mean of predicted minus
observed. -/
def bias {α : Type} [Field α] (d : List (α × α)) : α :=
  meanL (d.map fun p => p.1 - p.2)

/-- TSData constructor with bias_correct set (wl_plotter.py lines
111-118): the stored observation column is the incoming observation
shifted by the mean model-minus-observation difference of the incoming
data. -/
def biasCorrectData {α : Type} [Field α] (d : List (α × α)) : List (α × α) :=
  d.map fun p => (p.1, p.2 + meanL (d.map fun q => q.1 - q.2))

/-- Subtracting a constant from every entry subtracts length times the
constant from the sum. -/
theorem sum_map_sub_const {α : Type} [Field α] (l : List α) (c : α) :
    (l.map fun x => x - c).sum = l.sum - (l.length : α) * c := by
  induction l with
  | nil => simp
  | cons a l ih =>
    simp only [List.map_cons, List.sum_cons, ih, List.length_cons]
    push_cast
    ring

/-- C10: with the bias-correction option enabled, the bias computed on
the corrected data is exactly zero in exact arithmetic. -/
theorem c10_bias_correct_zero (d : List (ℚ × ℚ)) (hne : d ≠ []) :
    bias (biasCorrectData d) = 0 := by
  have hn : (d.length : ℚ) ≠ 0 :=
    Nat.cast_ne_zero.mpr (List.length_pos.mpr hne).ne'
  unfold bias biasCorrectData
  set mu := meanL (d.map fun q => q.1 - q.2) with hmu
  have h1 : ((d.map fun p => ((p.1, p.2 + mu) : ℚ × ℚ)).map fun p => p.1 - p.2)
      = (d.map fun p => p.1 - p.2).map fun x => x - mu := by
    simp only [List.map_map]
    apply List.map_congr_left
    intro p _
    simp only [Function.comp_apply]
    ring
  rw [h1, meanL, sum_map_sub_const, List.length_map]
  rw [hmu, meanL, List.length_map]
  field_simp

/-- C10 witness on a concrete two-row frame. -/
theorem c10_bias_correct_zero_witness :
    [((1 : ℚ), (2 : ℚ)), (3, 5)] ≠ [] ∧
      bias (biasCorrectData [((1 : ℚ), (2 : ℚ)), (3, 5)]) = 0 :=
  ⟨by simp, c10_bias_correct_zero _ (by simp)⟩

/-- TSData.rmse (wl_plotter.py lines 137-138): square root of the mean
squared model-minus-observation difference. -/
noncomputable def rmse (d : List (ℝ × ℝ)) : ℝ :=
  Real.sqrt (meanL (d.map fun p => (p.1 - p.2) ^ 2))

/-- TSData.skill (wl_plotter.py lines 140-145): the Willmott skill
score, one minus the ratio of the squared error sum to the squared
spread sum about the observed mean. -/
noncomputable def skill (d : List (ℝ × ℝ)) : ℝ :=
  1 - (d.map fun p => (p.1 - p.2) ^ 2).sum /
      (d.map fun p =>
        (|p.1 - meanL (d.map fun q => q.2)| +
         |p.2 - meanL (d.map fun q => q.2)|) ^ 2).sum

/-- Column maximum, as pandas max on a nonempty column. -/
noncomputable def maxD (l : List ℝ) : ℝ :=
  match l with
  | [] => 0
  | x :: xs => xs.foldl max x

/-- Column minimum, as pandas min on a nonempty column. -/
noncomputable def minD (l : List ℝ) : ℝ :=
  match l with
  | [] => 0
  | x :: xs => xs.foldl min x

/-- TSData.nrmse (wl_plotter.py lines 158-159): rmse as a percentage of
the observed range. -/
noncomputable def nrmse (d : List (ℝ × ℝ)) : ℝ :=
  100 * rmse d / (maxD (d.map fun p => p.2) - minD (d.map fun p => p.2))

/-- The correlation statistic of TSData.corr (wl_plotter.py lines
152-153): the Pearson correlation coefficient of the predicted and
observed columns, written out as its defining ratio (scipy pearsonr in
exact arithmetic). -/
noncomputable def pearson (d : List (ℝ × ℝ)) : ℝ :=
  (d.map fun p =>
    (p.1 - meanL (d.map fun q => q.1)) * (p.2 - meanL (d.map fun q => q.2))).sum /
  Real.sqrt ((d.map fun p => (p.1 - meanL (d.map fun q => q.1)) ^ 2).sum *
    (d.map fun p => (p.2 - meanL (d.map fun q => q.2)) ^ 2).sum)

/-- C6: when the model column equals the observation column entrywise
and the observation is not constant, the pointwise statistics are
bias 0, rmse 0, nrmse 0, skill 1 and Pearson correlation 1. -/
theorem c6_perfect_model_stats (d : List (ℝ × ℝ))
    (heq : ∀ p ∈ d, p.1 = p.2)
    (hnc : ∃ p ∈ d, ∃ q ∈ d, p.2 ≠ q.2) :
    bias d = 0 ∧ rmse d = 0 ∧ nrmse d = 0 ∧ skill d = 1 ∧ pearson d = 1 := by
  have hsub : (d.map fun p => p.1 - p.2).sum = 0 := by
    apply List.sum_eq_zero
    intro x hx
    obtain ⟨p, hp, rfl⟩ := List.mem_map.mp hx
    exact sub_eq_zero.mpr (heq p hp)
  have hsq : (d.map fun p => (p.1 - p.2) ^ 2).sum = 0 := by
    apply List.sum_eq_zero
    intro x hx
    obtain ⟨p, hp, rfl⟩ := List.mem_map.mp hx
    rw [sub_eq_zero.mpr (heq p hp)]
    ring
  have hbias : bias d = 0 := by
    rw [bias, meanL, hsub, zero_div]
  have hrmse : rmse d = 0 := by
    rw [rmse, meanL, hsq, zero_div, Real.sqrt_zero]
  have hmeans : meanL (d.map fun q => (q.1 : ℝ)) = meanL (d.map fun q => q.2) := by
    rw [List.map_congr_left heq]
  have hSnn : (0 : ℝ) ≤ (d.map fun p => (p.2 - meanL (d.map fun q => q.2)) ^ 2).sum := by
    apply List.sum_nonneg
    intro x hx
    obtain ⟨r, _, rfl⟩ := List.mem_map.mp hx
    positivity
  have hS : (d.map fun p => (p.2 - meanL (d.map fun q => q.2)) ^ 2).sum ≠ 0 := by
    intro h0
    obtain ⟨p, hp, q, hq, hne⟩ := hnc
    have hz : ∀ x ∈ (d.map fun p => (p.2 - meanL (d.map fun q => q.2)) ^ 2), x = 0 := by
      intro x hx
      refine List.all_zero_of_le_zero_le_of_sum_eq_zero ?_ h0 hx
      intro y hy
      obtain ⟨r, _, rfl⟩ := List.mem_map.mp hy
      positivity
    have hp0 : (p.2 - meanL (d.map fun q => q.2)) ^ 2 = 0 :=
      hz _ (List.mem_map_of_mem _ hp)
    have hq0 : (q.2 - meanL (d.map fun q => q.2)) ^ 2 = 0 :=
      hz _ (List.mem_map_of_mem _ hq)
    have hp1 : p.2 = meanL (d.map fun q => q.2) := by
      have := pow_eq_zero_iff (n := 2) (by norm_num) |>.mp hp0
      linarith [this]
    have hq1 : q.2 = meanL (d.map fun q => q.2) := by
      have := pow_eq_zero_iff (n := 2) (by norm_num) |>.mp hq0
      linarith [this]
    exact hne (hp1.trans hq1.symm)
  have hnum : (d.map fun p =>
      (p.1 - meanL (d.map fun q => q.1)) * (p.2 - meanL (d.map fun q => q.2))).sum
      = (d.map fun p => (p.2 - meanL (d.map fun q => q.2)) ^ 2).sum := by
    congr 1
    apply List.map_congr_left
    intro p hp
    rw [heq p hp, hmeans]
    ring
  have hfst : (d.map fun p => (p.1 - meanL (d.map fun q => q.1)) ^ 2).sum
      = (d.map fun p => (p.2 - meanL (d.map fun q => q.2)) ^ 2).sum := by
    congr 1
    apply List.map_congr_left
    intro p hp
    rw [heq p hp, hmeans]
  have hpearson : pearson d = 1 := by
    rw [pearson, hnum, hfst, Real.sqrt_mul_self hSnn, div_self hS]
  have hskill : skill d = 1 := by
    rw [skill, hsq, zero_div, sub_zero]
  have hnrmse : nrmse d = 0 := by
    rw [nrmse, hrmse, mul_zero, zero_div]
  exact ⟨hbias, hrmse, hnrmse, hskill, hpearson⟩

/-- C6 witness: the hourly scenario with observation 1..5 and an
identical model. -/
theorem c6_perfect_model_stats_witness :
    (∀ p ∈ [((1 : ℝ), (1 : ℝ)), (2, 2), (3, 3), (4, 4), (5, 5)], p.1 = p.2) ∧
    (∃ p ∈ [((1 : ℝ), (1 : ℝ)), (2, 2), (3, 3), (4, 4), (5, 5)],
      ∃ q ∈ [((1 : ℝ), (1 : ℝ)), (2, 2), (3, 3), (4, 4), (5, 5)], p.2 ≠ q.2) ∧
    (bias [((1 : ℝ), (1 : ℝ)), (2, 2), (3, 3), (4, 4), (5, 5)] = 0 ∧
     rmse [((1 : ℝ), (1 : ℝ)), (2, 2), (3, 3), (4, 4), (5, 5)] = 0 ∧
     nrmse [((1 : ℝ), (1 : ℝ)), (2, 2), (3, 3), (4, 4), (5, 5)] = 0 ∧
     skill [((1 : ℝ), (1 : ℝ)), (2, 2), (3, 3), (4, 4), (5, 5)] = 1 ∧
     pearson [((1 : ℝ), (1 : ℝ)), (2, 2), (3, 3), (4, 4), (5, 5)] = 1) := by
  have h1 : ∀ p ∈ [((1 : ℝ), (1 : ℝ)), (2, 2), (3, 3), (4, 4), (5, 5)],
      p.1 = p.2 := by
    intro p hp
    fin_cases hp <;> norm_num
  have h2 : ∃ p ∈ [((1 : ℝ), (1 : ℝ)), (2, 2), (3, 3), (4, 4), (5, 5)],
      ∃ q ∈ [((1 : ℝ), (1 : ℝ)), (2, 2), (3, 3), (4, 4), (5, 5)], p.2 ≠ q.2 :=
    ⟨(1, 1), List.mem_cons_self _ _,
     (2, 2), List.mem_cons_of_mem _ (List.mem_cons_self _ _), by norm_num⟩
  exact ⟨h1, h2, c6_perfect_model_stats _ h1 h2⟩

/-! ## Constituent-wise combined error metric -/

/-- Per-station summand of mean_rmse (wl_plotter.py line 173). -/
noncomputable def rmse_vec_term (am an pm pn : ℝ) : ℝ :=
  0.5 * (am ^ 2 + an ^ 2) -
    am * an * Real.cos (Real.pi * phase_correct_elem (pm - pn) / 180)

/-- mean_rmse (wl_plotter.py lines 172-174).  The four inputs are the
model and observed amplitude columns and the model and observed phase
columns over stations; numpy evaluates the summand vectorwise, takes
the square root per station, and divides the sum of the roots by the
station count. -/
noncomputable def mean_rmse (Am An Pm Pn : List ℝ) : ℝ :=
  let tmp := ((Am.zip An).zip (Pm.zip Pn)).map fun q =>
    rmse_vec_term q.1.1 q.1.2 q.2.1 q.2.2
  (tmp.map Real.sqrt).sum / (tmp.length : ℝ)

/-- Modelled from the claim wording for C1: the same summands, with
the square root taken after averaging instead of before. -/
noncomputable def mean_rmse_specform (Am An Pm Pn : List ℝ) : ℝ :=
  let tmp := ((Am.zip An).zip (Pm.zip Pn)).map fun q =>
    rmse_vec_term q.1.1 q.1.2 q.2.1 q.2.2
  Real.sqrt (tmp.sum / (tmp.length : ℝ))

/-- Modelled from the amended wording for C1: the mean over stations
of the per-station square roots, indexed explicitly. -/
noncomputable def mean_rmse_meanform (Am An Pm Pn : List ℝ) : ℝ :=
  ((Finset.range Am.length).sum fun i =>
    Real.sqrt (rmse_vec_term (Am.getD i 0) (An.getD i 0) (Pm.getD i 0) (Pn.getD i 0)))
    / (Am.length : ℝ)

/-- C1 counterexample: with amplitudes 2 and 0 against 0 and 0 and all
phases 0, the code returns (sqrt 2)/2 while the claimed
sqrt-of-the-mean would return 1. -/
theorem c1_mean_rmse_counterexample :
    mean_rmse [2, 0] [0, 0] [0, 0] [0, 0] ≠
      mean_rmse_specform [2, 0] [0, 0] [0, 0] [0, 0] := by
  simp only [mean_rmse, mean_rmse_specform, rmse_vec_term, List.zip_cons_cons,
    List.zip_nil_right, List.zip_nil_left, List.map_cons, List.map_nil,
    List.sum_cons, List.sum_nil, List.length_cons, List.length_nil]
  norm_num [Real.sqrt_one]
  intro h
  rw [div_eq_one_iff_eq (by norm_num : (2 : ℝ) ≠ 0)] at h
  have hsq := Real.sq_sqrt (by norm_num : (0 : ℝ) ≤ 2)
  rw [h] at hsq
  norm_num at hsq

/-- Sum of a four-column vectorised map as an explicitly indexed sum. -/
theorem zipmap_sum_eq (f : ℝ → ℝ → ℝ → ℝ → ℝ) :
    ∀ (Am An Pm Pn : List ℝ), An.length = Am.length → Pm.length = Am.length →
      Pn.length = Am.length →
      (((Am.zip An).zip (Pm.zip Pn)).map fun q => f q.1.1 q.1.2 q.2.1 q.2.2).sum
        = (Finset.range Am.length).sum fun i =>
            f (Am.getD i 0) (An.getD i 0) (Pm.getD i 0) (Pn.getD i 0)
  | [], An, Pm, Pn, h1, h2, h3 => by simp
  | a :: As, An, Pm, Pn, h1, h2, h3 => by
    cases An with
    | nil => simp at h1
    | cons b Bs =>
      cases Pm with
      | nil => simp at h2
      | cons c Cs =>
        cases Pn with
        | nil => simp at h3
        | cons e Es =>
          simp only [List.zip_cons_cons, List.map_cons, List.sum_cons,
            List.length_cons]
          rw [Finset.sum_range_succ']
          simp only [List.getD_cons_succ, List.getD_cons_zero]
          rw [zipmap_sum_eq f As Bs Cs Es (by simpa using h1) (by simpa using h2)
            (by simpa using h3)]
          ring

/-- C1 amended: for equal-length constituent columns, the combined
amplitude and phase error is the mean over stations of the per-station
square roots (the square roots are averaged; the root is not taken
after averaging). -/
theorem c1_mean_rmse_is_mean_of_sqrts (Am An Pm Pn : List ℝ)
    (h1 : An.length = Am.length) (h2 : Pm.length = Am.length)
    (h3 : Pn.length = Am.length) :
    mean_rmse Am An Pm Pn = mean_rmse_meanform Am An Pm Pn := by
  simp only [mean_rmse, mean_rmse_meanform, List.map_map]
  rw [List.length_map, Function.comp_def]
  rw [zipmap_sum_eq (fun am an pm pn => Real.sqrt (rmse_vec_term am an pm pn))
    Am An Pm Pn h1 h2 h3]
  congr 1
  simp [List.length_zip, h1, h2, h3]

/-- C1 amended witness on the concrete two-station columns. -/
theorem c1_mean_rmse_is_mean_of_sqrts_witness :
    ([(0 : ℝ), 0].length = [(2 : ℝ), 0].length) ∧
      mean_rmse [(2 : ℝ), 0] [0, 0] [0, 0] [0, 0]
        = mean_rmse_meanform [(2 : ℝ), 0] [0, 0] [0, 0] [0, 0] :=
  ⟨rfl, c1_mean_rmse_is_mean_of_sqrts _ _ _ _ rfl rfl rfl⟩

/-! ## Per-station orchestration skeleton of main -/

/-- Branch-relevant facts about one station iteration of the main loop
(wl_plotter.py lines 543-598): whether the correspondence row has an
empty file name, whether the observation file exists, whether the
selected model column is all NaN, whether the restricted observation
frame is empty or has a single row, whether the model frame is empty,
and whether the joined frame is empty after the inner join. -/
structure StationMeta where
  stationId : String
  pathStr : String
  fnNameEmpty : Bool
  fileFound : Bool
  modelAllNaN : Bool
  obsEmpty : Bool
  obsLenOne : Bool
  modelEmpty : Bool
  joinedEmpty : Bool
deriving DecidableEq

/-- Messages printed on the two skip paths that print anything: the
missing data file message names the file path (wl_plotter.py line
550), the empty join message names the station (line 595). -/
inductive LogMsg where
  | skipFileNotFound (path : String)
  | joinedEmptyFor (station : String)
deriving DecidableEq

/-- Outcome of one station iteration: the station reaches the
statistics block and enters the summary, or it is skipped without a
message, or it is skipped with a printed message. -/
inductive StationResult where
  | included
  | skippedSilent
  | skippedLogged (msg : LogMsg)
deriving DecidableEq

/-- The sequence of guards of the station loop, in source order
(wl_plotter.py lines 546-596). -/
def processStation (s : StationMeta) : StationResult :=
  if s.fnNameEmpty then StationResult.skippedSilent
  else if !s.fileFound then
    StationResult.skippedLogged (LogMsg.skipFileNotFound s.pathStr)
  else if s.modelAllNaN then StationResult.skippedSilent
  else if s.obsEmpty || s.obsLenOne || s.modelEmpty then
    StationResult.skippedSilent
  else if s.joinedEmpty then
    StationResult.skippedLogged (LogMsg.joinedEmptyFor s.stationId)
  else StationResult.included

/-- Station identifiers appearing in the final summary (wl_plotter.py
lines 621 and 643): exactly the stations whose iteration reached the
statistics block. -/
def runSummary (stations : List StationMeta) : List String :=
  stations.filterMap fun s =>
    if processStation s = StationResult.included then some s.stationId else none

/-- C8 counterexample: a station whose model column is all NaN is
skipped with no message at all, so not every skip is reported. -/
theorem c8_silent_skip_counterexample :
    processStation
        ⟨"8654467", "obs/8654467.csv", false, true, true,
          false, false, false, false⟩ = StationResult.skippedSilent ∧
      StationResult.skippedSilent ≠ StationResult.included ∧
      ∀ m, StationResult.skippedSilent ≠ StationResult.skippedLogged m :=
  ⟨rfl, by simp, fun m => by simp⟩

/-- C8 amended: only two skip paths print a message, the missing data
file path (named by file path, not station identifier) and the empty
join path (named by station identifier); the empty file name, all-NaN
model and empty or single-row frame paths are silent.  Every skipped
station is excluded from the summary: the summary holds exactly the
identifiers of stations whose iteration completed, and the loop is a
total function of each station, so one skip never stops the run. -/
theorem c8_skip_reporting_amended :
    (∀ s m, processStation s = StationResult.skippedLogged m →
        m = LogMsg.skipFileNotFound s.pathStr ∨
        m = LogMsg.joinedEmptyFor s.stationId) ∧
    (∀ s, processStation s = StationResult.skippedSilent ↔
        (s.fnNameEmpty = true ∨
         (s.fnNameEmpty = false ∧ s.fileFound = true ∧ s.modelAllNaN = true) ∨
         (s.fnNameEmpty = false ∧ s.fileFound = true ∧ s.modelAllNaN = false ∧
           (s.obsEmpty = true ∨ s.obsLenOne = true ∨ s.modelEmpty = true)))) ∧
    (∀ stations sid, sid ∈ runSummary stations ↔
        ∃ s, s ∈ stations ∧ processStation s = StationResult.included ∧
          s.stationId = sid) := by
  refine ⟨?_, ?_, ?_⟩
  · intro s m h
    unfold processStation at h
    split_ifs at h with h1 h2 h3 h4 h5 <;>
      simp only [StationResult.skippedLogged.injEq] at h
    · exact Or.inl h.symm
    · exact Or.inr h.symm
  · intro s
    rcases s with ⟨sid, p, b1, b2, b3, b4, b5, b6, b7⟩
    cases b1 <;> cases b2 <;> cases b3 <;> cases b4 <;> cases b5 <;>
      cases b6 <;> cases b7 <;> simp [processStation]
  · intro stations sid
    unfold runSummary
    rw [List.mem_filterMap]
    constructor
    · rintro ⟨s, hs, hf⟩
      by_cases h : processStation s = StationResult.included
      · rw [if_pos h] at hf
        exact ⟨s, hs, h, Option.some.inj hf⟩
      · rw [if_neg h] at hf
        cases hf
    · rintro ⟨s, hs, h, rfl⟩
      exact ⟨s, hs, by rw [if_pos h]⟩

/-- C8 amended witness: the empty-join skip names its station, and a
successful station appears in the summary. -/
theorem c8_skip_reporting_amended_witness :
    (LogMsg.joinedEmptyFor "77" = LogMsg.skipFileNotFound "p" ∨
      LogMsg.joinedEmptyFor "77" = LogMsg.joinedEmptyFor "77") ∧
    ("42" ∈ runSummary [⟨"42", "q", false, true, false, false, false, false, false⟩] ↔
      ∃ s, s ∈ [(⟨"42", "q", false, true, false, false, false, false, false⟩ : StationMeta)] ∧
        processStation s = StationResult.included ∧ s.stationId = "42") :=
  ⟨c8_skip_reporting_amended.1
      ⟨"77", "p", false, true, false, false, false, false, true⟩
      (LogMsg.joinedEmptyFor "77") rfl,
    c8_skip_reporting_amended.2.2
      [⟨"42", "q", false, true, false, false, false, false, false⟩] "42"⟩

/-! ## Time series resampling and alignment

A pandas frame with one value column is a list of rows
(timestamp, value); timestamps are integer ticks, strictly increasing,
and values are rational. -/

/-- A time-indexed series. -/
abbrev Series : Type := List (ℤ × ℚ)

/-- The timestamp column of a series. -/
def times (s : Series) : List ℤ := s.map fun p => p.1

/-- np.diff on a timestamp column: consecutive differences. -/
def diffs (l : List ℤ) : List ℤ := List.zipWith (fun a b => b - a) l l.tail

/-- Insert a value into an ascending list, keeping it ascending. -/
def insertSorted (x : ℤ) : List ℤ → List ℤ
  | [] => [x]
  | y :: ys => if x ≤ y then x :: y :: ys else y :: insertSorted x ys

/-- Ascending sort; np.unique returns its distinct values sorted. -/
def sortInts (l : List ℤ) : List ℤ := l.foldr insertSorted []

/-- The mode helper inside higher_resolution (wl_plotter.py lines
443-445): np.unique gives the sorted distinct diffs with their counts
and argmax picks the first index holding the maximal count, hence the
smallest most frequent diff. -/
def modeOf (l : List ℤ) : ℤ :=
  match sortInts l.dedup with
  | [] => 0
  | x :: xs =>
    xs.foldl (fun best y => if l.count best < l.count y then y else best) x

/-- Which of two frames a comparison picks. -/
inductive Which where
  | fst
  | snd
deriving DecidableEq

/-- higher_resolution (wl_plotter.py lines 441-451): the argument
whose timestamp diffs have the smaller mode; on a tie the second
argument is returned. -/
def higher_resolution (t1 t2 : List ℤ) : Which :=
  if modeOf (diffs t1) < modeOf (diffs t2) then Which.fst else Which.snd

/-- First timestamp of a series (index[0]). -/
def firstTime (s : Series) : ℤ :=
  match s with
  | [] => 0
  | p :: _ => p.1

/-- Last timestamp of a series (index[-1]). -/
def lastTime (s : Series) : ℤ := (times s).getLastD 0

/-- index[1] - index[0]: the frequency main derives for each frame
(wl_plotter.py lines 567 and 580). -/
def freqOf (s : Series) : ℤ :=
  match s with
  | p :: q :: _ => q.1 - p.1
  | _ => 0

/-- First bin edge at or before time t0 of a resampling grid anchored
at origin with spacing f (floor division). -/
def gridStart (origin f t0 : ℤ) : ℤ := origin + f * ((t0 - origin).fdiv f)

/-- The resampling grid: bin edges from the edge at or before t0 up to
the last edge at or before t1. -/
def gridTimes (origin f t0 t1 : ℤ) : List ℤ :=
  (List.range (((t1 - gridStart origin f t0).fdiv f).toNat + 1)).map
    fun (k : ℕ) => gridStart origin f t0 + f * (k : ℤ)

/-- resample(freq, origin).asfreq() of line 585 and asfreq(freq) of
line 590: the output carries the sample value at each grid timestamp
when the series has a row at exactly that timestamp, else a missing
entry; no value is invented. -/
def asfreqSnap (s : Series) (origin f : ℤ) : List (ℤ × Option ℚ) :=
  if s = [] then []
  else (gridTimes origin f (firstTime s) (lastTime s)).map fun t => (t, s.lookup t)

/-- Positions of the rows that carry a value. -/
def validIdx (l : List (ℤ × Option ℚ)) : List (ℕ × ℚ) :=
  l.enum.filterMap fun q => q.2.2.map fun v => (q.1, v)

/-- Nearest valid row at or before position i. -/
def prevValid (l : List (ℤ × Option ℚ)) (i : ℕ) : Option (ℕ × ℚ) :=
  ((validIdx l).filter fun q => decide (q.1 ≤ i)).getLast?

/-- Nearest valid row at or after position i. -/
def nextValid (l : List (ℤ × Option ℚ)) (i : ℕ) : Option (ℕ × ℚ) :=
  (validIdx l).find? fun q => decide (i ≤ q.1)

/-- Fill value of interpolate(method=linear) at position i: linear in
position between the nearest valid rows, clamped to the last valid
value after it (np.interp clamps forward), and left missing before the
first valid row. -/
def interpValue (l : List (ℤ × Option ℚ)) (i : ℕ) : Option ℚ :=
  match prevValid l i, nextValid l i with
  | some (j, vj), some (k, vk) =>
    some (vj + (vk - vj) * ((i : ℚ) - (j : ℚ)) / ((k : ℚ) - (j : ℚ)))
  | some (_, vj), none => some vj
  | _, _ => none

/-- interpolate(method=linear) over a resampled frame: existing values
are kept and missing rows are filled from their neighbours. -/
def fillLinear (l : List (ℤ × Option ℚ)) : List (ℤ × Option ℚ) :=
  l.enum.map fun q =>
    (q.2.1,
      match q.2.2 with
      | some v => some v
      | none => interpValue l q.1)

/-- model.resample(obsfreq, origin=obs start).interpolate(linear) of
wl_plotter.py line 589. -/
def interpResample (s : Series) (origin f : ℤ) : List (ℤ × Option ℚ) :=
  fillLinear (asfreqSnap s origin f)

/-- The resampling dispatch of main (wl_plotter.py lines 583-590).
When the observation is the higher-resolution frame, the observation
is snapped onto the grid anchored at the model start with the model
frequency and the model is kept as is; otherwise the model is linearly
interpolated onto the grid anchored at the observation start with the
observation frequency, and the observation is regularised by asfreq on
its own grid.  The pair is (model channel, observation channel). -/
def resampleStep (obs model : Series) :
    List (ℤ × Option ℚ) × List (ℤ × Option ℚ) :=
  if higher_resolution (times obs) (times model) = Which.fst then
    (model.map fun p => (p.1, some p.2),
     asfreqSnap obs (firstTime model) (freqOf model))
  else
    (interpResample model (firstTime obs) (freqOf obs),
     asfreqSnap obs (firstTime obs) (freqOf obs))

/-- model_data.join(obs_data, how=inner).sort_index().dropna() of
wl_plotter.py line 593: rows holding both channels at the same
timestamp, in the model channel order. -/
def alignJoin (obs model : Series) : List (ℤ × ℚ × ℚ) :=
  (resampleStep obs model).1.filterMap fun p =>
    match p.2, (resampleStep obs model).2.lookup p.1 with
    | some m, some (some o) => some (p.1, m, o)
    | _, _ => none

/-- Every value reported by a snap resample is an original sample of
the input series at exactly the same timestamp. -/
theorem asfreqSnap_sound (s : Series) (origin f t : ℤ) (v : ℚ)
    (h : (t, some v) ∈ asfreqSnap s origin f) : (t, v) ∈ s := by
  unfold asfreqSnap at h
  split_ifs at h with hs
  · cases h
  · obtain ⟨u, _, hv⟩ := List.mem_map.mp h
    have h1 : u = t := congrArg Prod.fst hv
    have h2 : s.lookup u = some v := congrArg Prod.snd hv
    subst h1
    exact mem_of_lookup_eq_some h2

/-- C3 counterexample: on an irregular model frame the observation is
snapped onto a grid spaced by the first model timestamp difference, not
by the native (mode) sampling interval of the model.  Here the model
native interval is 10 but the first difference is 20, and the snapped
observation channel lands on timestamps 0, 20, 40 rather than the
native grid 0, 10, ..., 50. -/
theorem c3_resample_grid_counterexample :
    higher_resolution
        (times [((0 : ℤ), (0 : ℚ)), (5, 1), (10, 2), (15, 3), (20, 4), (25, 5),
          (30, 6), (35, 7), (40, 8), (45, 9), (50, 10)])
        (times [((0 : ℤ), (0 : ℚ)), (20, 1), (30, 2), (40, 3), (50, 4)])
      = Which.fst ∧
    modeOf (diffs (times [((0 : ℤ), (0 : ℚ)), (20, 1), (30, 2), (40, 3), (50, 4)])) = 10 ∧
    ((resampleStep
        [((0 : ℤ), (0 : ℚ)), (5, 1), (10, 2), (15, 3), (20, 4), (25, 5),
          (30, 6), (35, 7), (40, 8), (45, 9), (50, 10)]
        [((0 : ℤ), (0 : ℚ)), (20, 1), (30, 2), (40, 3), (50, 4)]).2.map
      fun p => p.1) = [0, 20, 40] ∧
    ¬ ((resampleStep
        [((0 : ℤ), (0 : ℚ)), (5, 1), (10, 2), (15, 3), (20, 4), (25, 5),
          (30, 6), (35, 7), (40, 8), (45, 9), (50, 10)]
        [((0 : ℤ), (0 : ℚ)), (20, 1), (30, 2), (40, 3), (50, 4)]).2.map
      fun p => p.1)
      = gridTimes
          (firstTime [((0 : ℤ), (0 : ℚ)), (20, 1), (30, 2), (40, 3), (50, 4)])
          (modeOf (diffs (times [((0 : ℤ), (0 : ℚ)), (20, 1), (30, 2), (40, 3), (50, 4)])))
          (firstTime [((0 : ℤ), (0 : ℚ)), (5, 1), (10, 2), (15, 3), (20, 4), (25, 5),
            (30, 6), (35, 7), (40, 8), (45, 9), (50, 10)])
          (lastTime [((0 : ℤ), (0 : ℚ)), (5, 1), (10, 2), (15, 3), (20, 4), (25, 5),
            (30, 6), (35, 7), (40, 8), (45, 9), (50, 10)]) := by
  refine ⟨by decide, by decide, by decide, by decide⟩

/-- C3 amended: the alignment resamples in exactly one direction,
chosen by comparing the modes of the consecutive timestamp
differences.  When the model has the larger mode the observation is
grid-snapped (asfreq, no interpolation) onto the grid anchored at the
model start with the first model timestamp difference as spacing and
the model is untouched; otherwise (observation with the larger mode,
or a tie) the model is linearly interpolated onto the grid anchored at
the observation start with the first observation difference as
spacing, and the observation is only snapped onto its own grid.  In
every case each value of the aligned observation channel is an
original observation sample at the same timestamp: interpolation is
never applied to the observation series. -/
theorem c3_alignment_direction (obs model : Series) :
    (modeOf (diffs (times obs)) < modeOf (diffs (times model)) →
      (resampleStep obs model).1 = (model.map fun p => (p.1, some p.2)) ∧
      (resampleStep obs model).2 = asfreqSnap obs (firstTime model) (freqOf model)) ∧
    (modeOf (diffs (times model)) ≤ modeOf (diffs (times obs)) →
      (resampleStep obs model).1 = interpResample model (firstTime obs) (freqOf obs) ∧
      (resampleStep obs model).2 = asfreqSnap obs (firstTime obs) (freqOf obs)) ∧
    (∀ t v, (t, some v) ∈ (resampleStep obs model).2 → (t, v) ∈ obs) := by
  refine ⟨?_, ?_, ?_⟩
  · intro h
    unfold resampleStep
    rw [if_pos]
    · exact ⟨rfl, rfl⟩
    · unfold higher_resolution
      rw [if_pos h]
  · intro h
    unfold resampleStep
    rw [if_neg]
    · exact ⟨rfl, rfl⟩
    · unfold higher_resolution
      rw [if_neg (not_lt.mpr h)]
      decide
  · intro t v hv
    unfold resampleStep at hv
    split_ifs at hv <;> exact asfreqSnap_sound _ _ _ _ _ hv

/-- C3 witness: with a five-minute observation against a ten-minute
model, the model channel is kept and the snapped observation value at
time 2 is the original observation sample there. -/
theorem c3_alignment_direction_witness :
    (modeOf (diffs (times [((0 : ℤ), (1 : ℚ)), (1, 2), (2, 3), (3, 4), (4, 5)]))
      < modeOf (diffs (times [((0 : ℤ), (10 : ℚ)), (2, 20), (4, 30)]))) ∧
    (resampleStep [((0 : ℤ), (1 : ℚ)), (1, 2), (2, 3), (3, 4), (4, 5)]
        [((0 : ℤ), (10 : ℚ)), (2, 20), (4, 30)]).1
      = ([((0 : ℤ), (10 : ℚ)), (2, 20), (4, 30)].map fun p => (p.1, some p.2)) ∧
    ((2 : ℤ), some (3 : ℚ)) ∈
      (resampleStep [((0 : ℤ), (1 : ℚ)), (1, 2), (2, 3), (3, 4), (4, 5)]
        [((0 : ℤ), (10 : ℚ)), (2, 20), (4, 30)]).2 ∧
    ((2 : ℤ), (3 : ℚ)) ∈ [((0 : ℤ), (1 : ℚ)), (1, 2), (2, 3), (3, 4), (4, 5)] := by
  have h := c3_alignment_direction
    [((0 : ℤ), (1 : ℚ)), (1, 2), (2, 3), (3, 4), (4, 5)]
    [((0 : ℤ), (10 : ℚ)), (2, 20), (4, 30)]
  exact ⟨by decide, (h.1 (by decide)).1, by decide, h.2.2 2 3 (by decide)⟩

/-! ### The identity case of alignment -/

/-- Peeling the first element off a mapped range. -/
theorem range_map_succ {α : Type} (k : ℕ) (h : ℕ → α) :
    (List.range (k+1)).map h = h 0 :: ((List.range k).map fun i => h (i+1)) := by
  rw [List.range_succ_eq_map, List.map_cons, List.map_map]
  rfl

/-- diffs on an exposed two-element head. -/
theorem diffs_cons_cons (a b : ℤ) (l : List ℤ) :
    diffs (a :: b :: l) = (b - a) :: diffs (b :: l) := rfl

/-- diffs of a mapped range, elementwise. -/
theorem diffs_map_range :
    ∀ (n : ℕ) (g : ℕ → ℤ), diffs ((List.range n).map g)
      = (List.range (n - 1)).map fun i => g (i + 1) - g i
  | 0, g => by simp [diffs]
  | 1, g => by
    rw [show List.range 1 = [0] from rfl]
    simp [diffs]
  | (m + 2), g => by
    rw [range_map_succ (m+1) g, range_map_succ m (fun i => g (i+1)), diffs_cons_cons]
    rw [show (g 1 :: ((List.range m).map fun i => g (i + 1 + 1)))
        = (List.range (m+1)).map fun i => g (i+1) from
      (range_map_succ m (fun i => g (i+1))).symm]
    rw [diffs_map_range (m+1) (fun i => g (i+1))]
    rw [show (m + 2 - 1) = m + 1 from rfl,
      range_map_succ m (fun i => g (i+1) - g i)]
    simp

/-- The timestamp column of a mapped range of rows. -/
theorem times_map (n : ℕ) (u : ℕ → ℤ) (g : ℕ → ℚ) :
    times ((List.range n).map fun i => (u i, g i)) = (List.range n).map u := by
  simp [times, List.map_map]

/-- The diffs of a regular timestamp grid are all the spacing. -/
theorem arith_diffs_replicate (t0 f : ℤ) (m : ℕ) :
    diffs ((List.range (m + 2)).map fun (i : ℕ) => t0 + f * (i : ℤ))
      = List.replicate (m + 1) f := by
  rw [diffs_map_range]
  rw [show (m + 2 - 1) = m + 1 from rfl]
  rw [show ((List.range (m+1)).map fun (i : ℕ) =>
        (t0 + f * ((i + 1 : ℕ) : ℤ)) - (t0 + f * (i : ℤ)))
      = (List.range (m+1)).map fun (_ : ℕ) => f from
    List.map_congr_left fun i _ => by push_cast; ring]
  rw [List.map_const', List.length_range]

/-- dedup of a nonempty constant list. -/
theorem dedup_replicate (f : ℤ) :
    ∀ k : ℕ, (List.replicate (k + 1) f).dedup = [f]
  | 0 => by simp
  | (k + 1) => by
    rw [List.replicate_succ, List.dedup_cons_of_mem (by simp [List.mem_replicate]),
      dedup_replicate f k]

/-- The mode of a nonempty constant diff list is its value. -/
theorem modeOf_replicate (f : ℤ) (k : ℕ) :
    modeOf (List.replicate (k + 1) f) = f := by
  unfold modeOf
  rw [dedup_replicate]
  rfl

/-- First timestamp of a mapped range of rows. -/
theorem firstTime_map_range (n : ℕ) (u : ℕ → ℤ) (g : ℕ → ℚ) :
    firstTime ((List.range (n+1)).map fun i => (u i, g i)) = u 0 := by
  rw [range_map_succ]
  rfl

/-- Last element of a mapped range. -/
theorem getLastD_map_range {α : Type} (d : α) :
    ∀ (n : ℕ) (h : ℕ → α), ((List.range (n+1)).map h).getLastD d = h n := by
  intro n h
  rw [List.range_succ, List.map_append]
  simp

/-- Last timestamp of a mapped range of rows. -/
theorem lastTime_map_range (n : ℕ) (u : ℕ → ℤ) (g : ℕ → ℚ) :
    lastTime ((List.range (n+1)).map fun i => (u i, g i)) = u n := by
  unfold lastTime times
  rw [List.map_map]
  exact getLastD_map_range 0 n _

/-- The derived frequency of a mapped range of rows with two or more
rows. -/
theorem freqOf_map_range (m : ℕ) (u : ℕ → ℤ) (g : ℕ → ℚ) :
    freqOf ((List.range (m+2)).map fun i => (u i, g i)) = u 1 - u 0 := by
  rw [range_map_succ (m+1), range_map_succ m]
  rfl

/-- The resampling grid anchored at the first sample of a regular
series is the series grid itself. -/
theorem gridTimes_arith (t0 f : ℤ) (hf : f ≠ 0) (m : ℕ) :
    gridTimes t0 f t0 (t0 + f * (m : ℤ))
      = (List.range (m+1)).map fun (k : ℕ) => t0 + f * (k : ℤ) := by
  unfold gridTimes gridStart
  rw [sub_self, Int.zero_fdiv, mul_zero, add_zero, add_sub_cancel_left,
    Int.mul_fdiv_cancel_left _ hf, Int.toNat_natCast]

/-- Lookup of the i-th grid timestamp in a regular series rebuilds the
i-th value. -/
theorem lookup_map_range {β : Type} (f : ℤ) (hf : 0 < f) :
    ∀ (n : ℕ) (t0 : ℤ) (g : ℕ → β) (i : ℕ), i < n →
      (((List.range n).map fun (j : ℕ) => (t0 + f * (j : ℤ), g j)).lookup
        (t0 + f * (i : ℤ))) = some (g i)
  | 0, t0, g, i, hi => absurd hi (Nat.not_lt_zero i)
  | (m+1), t0, g, i, hi => by
    rw [range_map_succ]
    cases i with
    | zero =>
      simp only [Nat.cast_zero, mul_zero, add_zero]
      rw [List.lookup_cons]
      simp
    | succ i =>
      have hkey : ((t0 + f * ((i + 1 : ℕ) : ℤ)) == (t0 + f * ((0 : ℕ) : ℤ))) = false := by
        rw [beq_eq_false_iff_ne]
        intro hc
        have h1 : (1 : ℤ) ≤ ((i + 1 : ℕ) : ℤ) := by
          exact_mod_cast Nat.succ_le_succ (Nat.zero_le i)
        have h2 : f * ((i + 1 : ℕ) : ℤ) = f * ((0 : ℕ) : ℤ) := by omega
        rw [Nat.cast_zero, mul_zero] at h2
        nlinarith
      rw [List.lookup_cons, hkey]
      have hrw : ((List.range m).map fun (j : ℕ) =>
            ((t0 + f * ((j + 1 : ℕ) : ℤ), g (j + 1)) : ℤ × β))
          = (List.range m).map fun (j : ℕ) => ((t0 + f) + f * (j : ℤ), g (j + 1)) := by
        apply List.map_congr_left
        intro j _
        rw [show (t0 + f * ((j + 1 : ℕ) : ℤ)) = (t0 + f) + f * (j : ℤ) by push_cast; ring]
      rw [hrw, show (t0 + f * ((i + 1 : ℕ) : ℤ)) = (t0 + f) + f * (i : ℤ) by push_cast; ring]
      exact lookup_map_range f hf m (t0 + f) (fun j => g (j + 1)) i (Nat.lt_of_succ_lt_succ hi)

/-- Interpolation never changes a frame with no missing rows. -/
theorem fillLinear_all_some (l : List (ℤ × Option ℚ))
    (h : ∀ p ∈ l, p.2 ≠ none) : fillLinear l = l := by
  unfold fillLinear
  have hcong : ∀ q ∈ l.enum,
      ((q.2.1, match q.2.2 with
        | some v => some v
        | none => interpValue l q.1) : ℤ × Option ℚ) = Prod.snd q := by
    rw [List.forall_mem_enum]
    intro i hi
    rcases hv : l[i].2 with _ | v
    · exact absurd hv (h _ (l.getElem_mem hi))
    · show (l[i].1, some v) = l[i]
      rw [← hv]
  rw [List.map_congr_left hcong]
  exact List.enumFrom_map_snd 0 l

/-- A filterMap that always succeeds is a map. -/
theorem filterMap_eq_map_of_forall {α β : Type} (F : α → Option β) (G : α → β) :
    ∀ l : List α, (∀ x ∈ l, F x = some (G x)) → l.filterMap F = l.map G
  | [], _ => rfl
  | a :: l, h => by
    rw [List.filterMap_cons, h a (List.mem_cons_self a l), List.map_cons,
      filterMap_eq_map_of_forall F G l fun x hx => h x (List.mem_cons_of_mem a hx)]

/-- Snapping a regular series onto its own grid keeps every row. -/
theorem asfreqSnap_arith (t0 f : ℤ) (hf : 0 < f) (m : ℕ) (g : ℕ → ℚ) :
    asfreqSnap ((List.range (m + 2)).map fun (i : ℕ) => (t0 + f * (i : ℤ), g i)) t0 f
      = (List.range (m + 2)).map fun (i : ℕ) => (t0 + f * (i : ℤ), some (g i)) := by
  rw [show m + 2 = (m + 1) + 1 from rfl]
  have hne : ((List.range ((m+1)+1)).map fun (i : ℕ) => (t0 + f * (i : ℤ), g i)) ≠ [] := by
    rw [range_map_succ]
    exact List.cons_ne_nil _ _
  rw [asfreqSnap, if_neg hne]
  rw [firstTime_map_range (m+1) (fun i => t0 + f * (i : ℤ)) g,
    lastTime_map_range (m+1) (fun i => t0 + f * (i : ℤ)) g]
  rw [show (t0 + f * ((0 : ℕ) : ℤ)) = t0 by push_cast; ring]
  rw [gridTimes_arith t0 f hf.ne' (m+1)]
  rw [List.map_map]
  apply List.map_congr_left
  intro i hi
  simp only [Function.comp_apply]
  rw [lookup_map_range f hf ((m+1)+1) t0 g i (List.mem_range.mp hi)]

/-- C7: when the observation and the model already live on one common
regular gap-free grid, alignment returns both unchanged: the joined
frame carries the original timestamps with the original model and
observation values. -/
theorem c7_align_identity (t0 f : ℤ) (n : ℕ) (ov mv : ℕ → ℚ)
    (hf : 0 < f) (hn : 2 ≤ n) (obs model : Series)
    (hobs : obs = (List.range n).map fun (i : ℕ) => (t0 + f * (i : ℤ), ov i))
    (hmodel : model = (List.range n).map fun (i : ℕ) => (t0 + f * (i : ℤ), mv i)) :
    alignJoin obs model
      = (List.range n).map fun (i : ℕ) => (t0 + f * (i : ℤ), mv i, ov i) := by
  obtain ⟨m, rfl⟩ : ∃ m, n = m + 2 := ⟨n - 2, by omega⟩
  subst hobs hmodel
  have hhr : ¬ higher_resolution
      (times ((List.range (m+2)).map fun (i : ℕ) => (t0 + f * (i : ℤ), ov i)))
      (times ((List.range (m+2)).map fun (i : ℕ) => (t0 + f * (i : ℤ), mv i)))
      = Which.fst := by
    unfold higher_resolution
    rw [times_map (m+2) (fun i => t0 + f * (i : ℤ)) ov,
      times_map (m+2) (fun i => t0 + f * (i : ℤ)) mv,
      arith_diffs_replicate, modeOf_replicate,
      if_neg (lt_irrefl f)]
    decide
  have hfq : freqOf ((List.range (m+2)).map fun (i : ℕ) => (t0 + f * (i : ℤ), ov i))
      = f := by
    rw [freqOf_map_range m (fun i => t0 + f * (i : ℤ)) ov]
    push_cast
    ring
  have hft : firstTime ((List.range (m+2)).map fun (i : ℕ) => (t0 + f * (i : ℤ), ov i))
      = t0 := by
    rw [show m + 2 = (m+1)+1 from rfl,
      firstTime_map_range (m+1) (fun i => t0 + f * (i : ℤ)) ov]
    push_cast
    ring
  have hfill : fillLinear
      ((List.range (m+2)).map fun (i : ℕ) => (t0 + f * (i : ℤ), some (mv i)))
      = (List.range (m+2)).map fun (i : ℕ) => (t0 + f * (i : ℤ), some (mv i)) := by
    apply fillLinear_all_some
    intro p hp
    obtain ⟨i, _, rfl⟩ := List.mem_map.mp hp
    simp
  have hstep : resampleStep
      ((List.range (m+2)).map fun (i : ℕ) => (t0 + f * (i : ℤ), ov i))
      ((List.range (m+2)).map fun (i : ℕ) => (t0 + f * (i : ℤ), mv i))
      = ((List.range (m+2)).map fun (i : ℕ) => (t0 + f * (i : ℤ), some (mv i)),
         (List.range (m+2)).map fun (i : ℕ) => (t0 + f * (i : ℤ), some (ov i))) := by
    unfold resampleStep interpResample
    rw [if_neg hhr, hfq, hft, asfreqSnap_arith t0 f hf m mv,
      asfreqSnap_arith t0 f hf m ov, hfill]
  unfold alignJoin
  rw [hstep]
  rw [List.filterMap_map]
  apply filterMap_eq_map_of_forall
  intro i him
  simp only [Function.comp_apply]
  rw [lookup_map_range f hf (m+2) t0 (fun j => some (ov j)) i (List.mem_range.mp him)]

/-- C7 witness: two identical two-point hourly grids pass through
alignment unchanged. -/
theorem c7_align_identity_witness :
    (0 : ℤ) < 1 ∧ 2 ≤ 2 ∧
      alignJoin ((List.range 2).map fun (i : ℕ) => ((0 : ℤ) + 1 * (i : ℤ), (7 : ℚ)))
          ((List.range 2).map fun (i : ℕ) => ((0 : ℤ) + 1 * (i : ℤ), (9 : ℚ)))
        = (List.range 2).map fun (i : ℕ) => ((0 : ℤ) + 1 * (i : ℤ), (9 : ℚ), (7 : ℚ)) :=
  ⟨by decide, by decide,
    c7_align_identity 0 1 2 (fun _ => 7) (fun _ => 9) (by decide) (by decide)
      _ _ rfl rfl⟩

end WL
